import Mathlib

/-!
Verification development for the go-gcp-img-meta image-deduplication service.

The Go program lists objects of a source GCS bucket, records one metadata row
per object name in a CockroachDB table (idempotent insert via
ON CONFLICT (name) DO NOTHING), and copies an object to the destination bucket
only when no row with the same crc32 fingerprint existed before the insert;
the copy carries a DoesNotExist precondition on the destination object.

The definitions below are a shallow embedding of the relevant functions of
src/service.go (insertImage, getImageCount, processImage, Start, Stop,
IsReady) and of the health handler in the web-server file.  Persistent
database failures and copy failures are injected through explicit environment
flags, and the processing loop is driven by an explicit list of iterator
events.  The external GCS MatchGlob filter is modelled from the spec, see
the doc comments on toTokens and matchTok.
-/

/-- Subset of storage.ObjectAttrs used by the service: Name, Size and CRC32C
(the crc32c checksum is a uint32; its values fit in Nat unchanged since the
code never does arithmetic on it). -/
structure ObjectAttrs where
  name : String
  size : Int
  crc32c : Nat
  deriving DecidableEq

/-- One row of the images table:
CREATE TABLE images (name STRING PRIMARY KEY, section STRING, prefix STRING,
size FLOAT, crc32 OID).  The column named section is embedded as sect and
the column named prefix as pfx (both words are reserved in Lean). -/
structure ImageRow where
  name : String
  sect : String
  pfx : String
  size : Int
  crc32 : Nat
  deriving DecidableEq

/-- Embeds strings.Split(attrs.Name, "/")[0]: the part of the name before the
first separator (the whole name when there is no separator). -/
def sectionOf (name : String) : String :=
  { data := name.data.takeWhile (fun c => c ≠ '/') }

/-- Embeds filepath.Dir(name): everything before the last separator, "." when
there is none, "/" when the last separator is the first character.
filepath.Dir additionally runs Clean on the result; for slash-normalised
names (no duplicate and no trailing separators), which is the only shape the
claims use, Clean is the identity and is therefore not modelled. -/
def filepathDir (p : String) : String :=
  match p.data.reverse.dropWhile (fun c => c ≠ '/') with
  | [] => "."
  | ['/'] => "/"
  | '/' :: rest => { data := rest.reverse }
  | _ => "."

/-- Embeds insertImage: INSERT INTO images (name, section, prefix, size, crc32)
VALUES (i.Name, s, filepath.Dir(i.Name), i.Size, i.CRC32C)
ON CONFLICT (name) DO NOTHING.  The table is modelled as a list of rows with
name as the primary key: when a row with the same name exists the insert is a
no-op, otherwise the new row is appended.  The transactional retry wrapper
(crdbpgx.ExecuteTx) retries serialization conflicts internally; a persistent
failure of the transaction is injected at the call site in processImage. -/
def insertImage (db : List ImageRow) (i : ObjectAttrs) (s : String) : List ImageRow :=
  if db.any (fun r => r.name == i.name) then db
  else db ++ [{ name := i.name, sect := s, pfx := filepathDir i.name,
                size := i.size, crc32 := i.crc32c }]

/-- Embeds getImageCount: SELECT COUNT(*) FROM images WHERE crc32 = $1.
A persistent failure of the transaction is injected at the call site in
processImage. -/
def getImageCount (db : List ImageRow) (crc32 : Nat) : Nat :=
  (db.filter (fun r => r.crc32 == crc32)).length

/-- Outcome of processing one object, as observed through the final metric
increment of processImage. -/
inductive Outcome where
  | successCopy
  | successSkip
  | error
  deriving DecidableEq

/-- Failure injection for one processImage call: persistent failure of the
getImageCount transaction, persistent failure of the insertImage transaction,
and a non-precondition failure of the copy (permissions, network, quota).
A precondition failure of the copy is not a flag: it is determined by the
destination bucket already containing the object name. -/
structure ObjEnv where
  countErr : Bool
  insertErr : Bool
  copyOtherErr : Bool
  deriving DecidableEq

/-- Result of one processImage call: the updated table, the updated set of
destination-object names, the label set passed to the single
objectProcessed.With(...).Inc() call this path performs, the outcome, and
an observation flag recording whether the conditional copy was attempted. -/
structure ProcResult where
  db : List ImageRow
  dst : List String
  inc : List (String × String)
  outcome : Outcome
  copyAttempted : Bool
  deriving DecidableEq

/-- Embeds processImage from src/service.go.  Control flow of the source:
count, err := getImageCount(...); on err increment with labels
(status = error) only and return.  Then insertImage; on err increment with
labels (status = error) only and return.  If count == 0 set status = copy and
run the copy with a DoesNotExist precondition on the destination: the copier
returns an error when the destination object already exists (HTTP 412
precondition failure) or on any other failure, and the code then increments
with (status = error, operation = copy) and returns.  Finally increment with
(status = success, operation = status) where status is copy or skip. -/
def processImage (e : ObjEnv) (db : List ImageRow) (dst : List String)
    (attrs : ObjectAttrs) : ProcResult :=
  let s := sectionOf attrs.name
  if e.countErr then
    { db := db, dst := dst, inc := [("status", "error")],
      outcome := Outcome.error, copyAttempted := false }
  else
    let count := getImageCount db attrs.crc32c
    if e.insertErr then
      { db := db, dst := dst, inc := [("status", "error")],
        outcome := Outcome.error, copyAttempted := false }
    else
      let db2 := insertImage db attrs s
      if count = 0 then
        if dst.contains attrs.name || e.copyOtherErr then
          { db := db2, dst := dst,
            inc := [("status", "error"), ("operation", "copy")],
            outcome := Outcome.error, copyAttempted := true }
        else
          { db := db2, dst := attrs.name :: dst,
            inc := [("status", "success"), ("operation", "copy")],
            outcome := Outcome.successCopy, copyAttempted := true }
      else
        { db := db2, dst := dst,
          inc := [("status", "success"), ("operation", "skip")],
          outcome := Outcome.successSkip, copyAttempted := false }

/-- One event of the source-bucket iterator as consumed by the Start loop:
either an object (with the failure injection for its processing), or a
non-exhaustion listing error (b.Next() returning a nil attrs pointer together
with an error).  Iterator exhaustion (iterator.Done) is the end of the
list. -/
inductive NextStep where
  | item (attrs : ObjectAttrs) (env : ObjEnv)
  | listErr
  deriving DecidableEq

/-- State threaded through the Start loop: the service Ready flag, the images
table, the destination-object names, the label sets of every metric increment
so far (in order), and the number of objects handed to processImage. -/
structure LoopState where
  ready : Bool
  db : List ImageRow
  dst : List String
  metrics : List (List (String × String))
  processed : Nat
  deriving DecidableEq

/-- Embeds the for-loop of Start (src/service.go lines 195-214):
for svc.Ready { idx++; if limit != 0 and idx > limit break;
attrs, err := b.Next(); if err == Done break;
if err != nil log the error; processImage(attrs) }.
On a non-Done error the source has no continue statement: it falls through
and calls processImage with the nil attrs returned by Next, and processImage
immediately dereferences attrs (strings.Split(attrs.Name, "/")); this
nil-pointer dereference is embedded as Except.error ().  An external Stop()
request lands as ready = false and is observed by the check at the top of the
iteration. -/
def runLoop (limit idx : Int) (steps : List NextStep) (st : LoopState) :
    Except Unit LoopState :=
  if st.ready = false then Except.ok st
  else if limit ≠ 0 ∧ idx + 1 > limit then Except.ok st
  else
    match steps with
    | [] => Except.ok st
    | NextStep.listErr :: _ => Except.error ()
    | NextStep.item attrs e :: rest =>
      runLoop limit (idx + 1) rest
        { ready := st.ready
          db := (processImage e st.db st.dst attrs).db
          dst := (processImage e st.db st.dst attrs).dst
          metrics := st.metrics ++ [(processImage e st.db st.dst attrs).inc]
          processed := st.processed + 1 }

/-- Observable result of a completed Start call: whether Start returned a
non-nil error, the final Ready flag, and the final loop state. -/
structure StartOutcome where
  retErr : Bool
  ready : Bool
  db : List ImageRow
  dst : List String
  metrics : List (List (String × String))
  processed : Nat
  deriving DecidableEq

/-- Embeds Start (src/service.go lines 160-217): the table is set up inside a
retrying transaction (initTable); if that fails Start returns the error with
Ready still false and nothing processed.  Otherwise svc.Ready = true and the
loop runs; when the loop exits Start returns nil without touching Ready.
A nil-pointer panic inside the loop is propagated as Except.error (). -/
def startSvc (schemaInitErr : Bool) (limit : Int) (steps : List NextStep)
    (db0 : List ImageRow) (dst0 : List String) : Except Unit StartOutcome :=
  if schemaInitErr then
    Except.ok { retErr := true, ready := false, db := db0, dst := dst0,
                metrics := [], processed := 0 }
  else
    match runLoop limit 0 steps
        { ready := true, db := db0, dst := dst0, metrics := [], processed := 0 } with
    | Except.error e => Except.error e
    | Except.ok st =>
      Except.ok { retErr := false, ready := st.ready, db := st.db,
                  dst := st.dst, metrics := st.metrics, processed := st.processed }

/-- Embeds IsReady: returns svc.Ready. -/
def imgIsReady (ready : Bool) : Bool := ready

/-- Embeds Stop: sets svc.Ready = false regardless of the current value. -/
def imgStop (_ready : Bool) : Bool := false

/-- Embeds the health handler of startWebServer: 200 "ready" when
svc.IsReady(), otherwise 500 "not ready". -/
def healthResponse (ready : Bool) : Nat × String :=
  if ready then (200, "ready") else (500, "not ready")

/-- Token of a glob pattern: a literal character, a single star (matches any
run of characters other than the separator), or a double star (matches any
run of characters including the separator). -/
inductive Tok where
  | lit (c : Char)
  | star
  | dstar
  deriving DecidableEq

/-- Modelled from the spec: the glob-style name filter applied by the external
object-store listing (spec sections 4.2 and 6); the listing client itself is
outside the repository.  toTokens parses a pattern into tokens, implementing
the literal, star and double-star operators of the GCS MatchGlob syntax. -/
def toTokens : List Char → List Tok
  | [] => []
  | '*' :: '*' :: rest => Tok.dstar :: toTokens rest
  | '*' :: rest => Tok.star :: toTokens rest
  | c :: rest => Tok.lit c :: toTokens rest

/-- Remainders of a name after a single star consumed a (possibly empty)
run of non-separator characters from its front. -/
def starRemainders : List Char → List (List Char)
  | [] => [[]]
  | c :: ns => (c :: ns) :: (if c = '/' then [] else starRemainders ns)

/-- Remainders of a name after a double star consumed a (possibly empty)
run of arbitrary characters from its front: all suffixes. -/
def dstarRemainders : List Char → List (List Char)
  | [] => [[]]
  | c :: ns => (c :: ns) :: dstarRemainders ns

/-- Modelled from the spec: matching of a tokenised glob pattern against a
name, for the external GCS MatchGlob filter (spec sections 4.2 and 6). -/
def matchTok : List Tok → List Char → Bool
  | [], ns => ns.isEmpty
  | Tok.lit _ :: _, [] => false
  | Tok.lit p :: ps, c :: ns => p == c && matchTok ps ns
  | Tok.star :: ps, ns => (starRemainders ns).any (fun r => matchTok ps r)
  | Tok.dstar :: ps, ns => (dstarRemainders ns).any (fun r => matchTok ps r)

/-- Modelled from the spec: whether a glob pattern matches an object name. -/
def matchGlob (pat n : String) : Bool :=
  matchTok (toTokens pat.data) n.data

/-- Embeds the query construction of Start (src/service.go lines 174-181):
q := storage.Query{}; if svc.Prefix != "" then
q.MatchGlob = fmt.Sprintf("%s/*.jpg", svc.Prefix). -/
def buildQuery (p : String) : Option String :=
  if p ≠ "" then some (p ++ "/*.jpg") else none

/-- Names enumerated by src.Objects(ctx, q) for the query built from the
service Prefix: every object of the bucket when no MatchGlob is set,
otherwise exactly the names matched by the glob. -/
def listedObjects (p : String) (names : List String) : List String :=
  match buildQuery p with
  | none => names
  | some pat => names.filter (fun n => matchGlob pat n)

/-- Claim C6: if the fingerprint-count query fails, processing this object
records outcome Error and performs neither the insert nor a copy; if the
count succeeds but the insert fails, it records outcome Error and never
attempts the copy; a copy is only ever attempted when both index operations
succeeded. -/
theorem index_failure_fail_safe (e : ObjEnv) (db : List ImageRow)
    (dst : List String) (attrs : ObjectAttrs) :
    (e.countErr = true →
      processImage e db dst attrs =
        { db := db, dst := dst, inc := [("status", "error")],
          outcome := Outcome.error, copyAttempted := false }) ∧
    (e.countErr = false → e.insertErr = true →
      processImage e db dst attrs =
        { db := db, dst := dst, inc := [("status", "error")],
          outcome := Outcome.error, copyAttempted := false }) ∧
    ((processImage e db dst attrs).copyAttempted = true →
      e.countErr = false ∧ e.insertErr = false) := by
  obtain ⟨c, i, o⟩ := e
  refine ⟨fun hc => ?_, fun hc hi => ?_, fun hcopy => ?_⟩
  · simp only at hc; subst hc
    simp [processImage]
  · simp only at hc hi; subst hc; subst hi
    simp [processImage]
  · cases c with
    | true => simp [processImage] at hcopy
    | false =>
      cases i with
      | true => simp [processImage] at hcopy
      | false => exact ⟨rfl, rfl⟩

/-- Witness for index_failure_fail_safe at concrete inputs: a count failure
and an insert failure on the first object of the README example. -/
theorem index_failure_fail_safe_witness :
    (processImage ⟨true, false, false⟩ [] [] ⟨"A/1/1_1.jpg", 253648, 2784486622⟩ =
      { db := [], dst := [], inc := [("status", "error")],
        outcome := Outcome.error, copyAttempted := false }) ∧
    (processImage ⟨false, true, false⟩ [] [] ⟨"A/1/1_1.jpg", 253648, 2784486622⟩ =
      { db := [], dst := [], inc := [("status", "error")],
        outcome := Outcome.error, copyAttempted := false }) :=
  ⟨(index_failure_fail_safe ⟨true, false, false⟩ [] [] _).1 rfl,
   (index_failure_fail_safe ⟨false, true, false⟩ [] [] _).2.1 rfl rfl⟩

/-- Claim C1, counterexample: for an object whose fingerprint count is 0 and
whose destination object already exists, the conditional copy fails its
precondition and the code records outcome Error with labels
(status = error, operation = copy) — not a Success-Skip-equivalent. -/
theorem copy_precondition_recorded_as_error_cex :
    (processImage ⟨false, false, false⟩ [] ["A/1/1_1.jpg"]
        ⟨"A/1/1_1.jpg", 253648, 2784486622⟩).outcome = Outcome.error ∧
    (processImage ⟨false, false, false⟩ [] ["A/1/1_1.jpg"]
        ⟨"A/1/1_1.jpg", 253648, 2784486622⟩).inc =
      [("status", "error"), ("operation", "copy")] ∧
    (processImage ⟨false, false, false⟩ [] ["A/1/1_1.jpg"]
        ⟨"A/1/1_1.jpg", 253648, 2784486622⟩).outcome ≠ Outcome.successSkip := by
  refine ⟨rfl, rfl, by decide⟩

/-- Claim C1, amended: for every object whose conditional copy is attempted
(fingerprint count 0, both index operations succeeded) and whose destination
object already exists, the copy precondition failure surfaces as an error
from the copier and is recorded as an Error outcome with operation copy,
like any other copy failure; the destination object is not overwritten and
the metadata row is still inserted. -/
theorem copy_precondition_failure_is_error (e : ObjEnv) (db : List ImageRow)
    (dst : List String) (attrs : ObjectAttrs)
    (hce : e.countErr = false) (hie : e.insertErr = false)
    (hcount : getImageCount db attrs.crc32c = 0)
    (hdst : dst.contains attrs.name = true) :
    processImage e db dst attrs =
      { db := insertImage db attrs (sectionOf attrs.name), dst := dst,
        inc := [("status", "error"), ("operation", "copy")],
        outcome := Outcome.error, copyAttempted := true } := by
  have hmem : attrs.name ∈ dst := by
    simpa using hdst
  simp [processImage, hce, hie, hcount, hmem]

/-- Witness for copy_precondition_failure_is_error: the destination already
holds the object name, the index is empty, and the copy is recorded as an
error. -/
theorem copy_precondition_failure_is_error_witness :
    (getImageCount [] 2784486622 = 0 ∧
      List.contains ["A/1/1_1.jpg"] "A/1/1_1.jpg" = true) ∧
    processImage ⟨false, false, false⟩ [] ["A/1/1_1.jpg"]
        ⟨"A/1/1_1.jpg", 253648, 2784486622⟩ =
      { db := insertImage [] ⟨"A/1/1_1.jpg", 253648, 2784486622⟩
                (sectionOf "A/1/1_1.jpg"),
        dst := ["A/1/1_1.jpg"],
        inc := [("status", "error"), ("operation", "copy")],
        outcome := Outcome.error, copyAttempted := true } :=
  ⟨⟨rfl, rfl⟩,
   copy_precondition_failure_is_error ⟨false, false, false⟩ [] ["A/1/1_1.jpg"]
     ⟨"A/1/1_1.jpg", 253648, 2784486622⟩ rfl rfl rfl rfl⟩

/-- Claim C2: the processing loop, at an iteration where the source iterator
returns a non-exhaustion error, does not skip the item and continue — the
source logs the error and falls through, calling processImage with the nil
attrs pointer returned by Next, which dereferences it (modelled as
Except.error ()): the run crashes instead of continuing. -/
theorem listing_error_not_skipped :
    runLoop 0 0 [NextStep.listErr] ⟨true, [], [], [], 0⟩ = Except.error () ∧
    runLoop 0 0 [NextStep.listErr,
        NextStep.item ⟨"A/1/1_1.jpg", 253648, 2784486622⟩ ⟨false, false, false⟩]
      ⟨true, [], [], [], 0⟩ = Except.error () :=
  ⟨rfl, rfl⟩

/-- Claim C3: on the index-count-failure and insert-failure error paths the
single metric increment carries only the status label — the operation label
required by the CounterVec declaration (and by the claim) is absent. -/
theorem error_path_metric_missing_operation_label :
    ((processImage ⟨true, false, false⟩ [] []
        ⟨"A/1/1_1.jpg", 253648, 2784486622⟩).inc = [("status", "error")] ∧
      List.lookup "operation"
        ((processImage ⟨true, false, false⟩ [] []
          ⟨"A/1/1_1.jpg", 253648, 2784486622⟩).inc) = none) ∧
    ((processImage ⟨false, true, false⟩ [] []
        ⟨"A/1/1_1.jpg", 253648, 2784486622⟩).inc = [("status", "error")] ∧
      List.lookup "operation"
        ((processImage ⟨false, true, false⟩ [] []
          ⟨"A/1/1_1.jpg", 253648, 2784486622⟩).inc) = none) := by
  refine ⟨⟨rfl, by decide⟩, ⟨rfl, by decide⟩⟩

/-- Claim C4: after the processing loop terminates by iterator exhaustion or
by the configured limit, the service Ready flag is still true (Start returns
nil without clearing it; only Stop sets it to false), so IsReady() keeps
reporting true after termination. -/
theorem ready_not_cleared_on_loop_exit :
    (∃ st : StartOutcome, startSvc false 0 [] [] [] = Except.ok st ∧
      st.retErr = false ∧ imgIsReady st.ready = true) ∧
    (∃ st : StartOutcome,
      startSvc false 1
        [NextStep.item ⟨"A/1/1_1.jpg", 253648, 2784486622⟩ ⟨false, false, false⟩,
         NextStep.item ⟨"A/1/1_2.jpg", 253703, 3645130469⟩ ⟨false, false, false⟩]
        [] [] = Except.ok st ∧
      st.retErr = false ∧ st.processed = 1 ∧ imgIsReady st.ready = true) ∧
    (∀ r : Bool, imgStop r = false) :=
  ⟨⟨_, rfl, rfl, rfl⟩, ⟨_, rfl, rfl, rfl, rfl⟩, fun _ => rfl⟩

/-- Claim C9: when schema initialization fails, Start returns the error
before processing anything: the Ready flag is never set, no index row is
written, no copy happens, no metric is incremented, and the health endpoint
answers 500 not ready. -/
theorem schema_init_failure_never_ready (limit : Int) (steps : List NextStep)
    (db0 : List ImageRow) (dst0 : List String) :
    startSvc true limit steps db0 dst0 =
      Except.ok { retErr := true, ready := false, db := db0, dst := dst0,
                  metrics := [], processed := 0 } ∧
    imgIsReady false = false ∧
    healthResponse (imgIsReady false) = (500, "not ready") :=
  ⟨rfl, rfl, rfl⟩

/-- Claim C8: re-processing an object whose row (same name, same fingerprint)
is already durable in the index is idempotent: the insert is a no-op, the
observed count is at least one so no copy is attempted, and the outcome is
Success-Skip. -/
theorem reprocess_same_name_skipped (e : ObjEnv) (db : List ImageRow)
    (dst : List String) (attrs : ObjectAttrs) (row : ImageRow)
    (hmem : row ∈ db) (hname : row.name = attrs.name)
    (hcrc : row.crc32 = attrs.crc32c)
    (hce : e.countErr = false) (hie : e.insertErr = false) :
    processImage e db dst attrs =
      { db := db, dst := dst,
        inc := [("status", "success"), ("operation", "skip")],
        outcome := Outcome.successSkip, copyAttempted := false } := by
  have hcount : getImageCount db attrs.crc32c ≠ 0 := by
    have hmemf : row ∈ db.filter (fun r => r.crc32 == attrs.crc32c) :=
      List.mem_filter.mpr ⟨hmem, by simp [hcrc]⟩
    unfold getImageCount
    intro hlen
    rw [List.length_eq_zero] at hlen
    rw [hlen] at hmemf
    exact (List.not_mem_nil row) hmemf
  have hins : insertImage db attrs (sectionOf attrs.name) = db := by
    unfold insertImage
    rw [if_pos]
    exact List.any_eq_true.mpr ⟨row, hmem, by simp [hname]⟩
  simp [processImage, hce, hie, hins, hcount]

/-- Witness for reprocess_same_name_skipped: the first README object is
re-processed with its row already in the index. -/
theorem reprocess_same_name_skipped_witness :
    ((⟨"A/1/1_1.jpg", "A", "A/1", 253648, 2784486622⟩ : ImageRow) ∈
        [(⟨"A/1/1_1.jpg", "A", "A/1", 253648, 2784486622⟩ : ImageRow)]) ∧
    processImage ⟨false, false, false⟩
        [⟨"A/1/1_1.jpg", "A", "A/1", 253648, 2784486622⟩] ["A/1/1_1.jpg"]
        ⟨"A/1/1_1.jpg", 253648, 2784486622⟩ =
      { db := [⟨"A/1/1_1.jpg", "A", "A/1", 253648, 2784486622⟩],
        dst := ["A/1/1_1.jpg"],
        inc := [("status", "success"), ("operation", "skip")],
        outcome := Outcome.successSkip, copyAttempted := false } :=
  ⟨List.mem_singleton.mpr rfl,
   reprocess_same_name_skipped ⟨false, false, false⟩
     [⟨"A/1/1_1.jpg", "A", "A/1", 253648, 2784486622⟩] ["A/1/1_1.jpg"]
     ⟨"A/1/1_1.jpg", 253648, 2784486622⟩
     ⟨"A/1/1_1.jpg", "A", "A/1", 253648, 2784486622⟩
     (List.mem_singleton.mpr rfl) rfl rfl rfl rfl⟩

/-- Helper for the limit claim: running the loop over a listing of plain
objects processes, from loop index idx on, the lesser of the remaining
limit capacity and the number of remaining objects (all of them when the
limit is 0), and never clears the ready flag. -/
theorem runLoop_items_processed (N : Int) :
    ∀ (items : List (ObjectAttrs × ObjEnv)) (idx : Int) (st : LoopState),
      st.ready = true →
      ∃ st2 : LoopState,
        runLoop N idx (items.map (fun p => NextStep.item p.1 p.2)) st = Except.ok st2 ∧
        st2.processed = st.processed +
          (if N = 0 then items.length else min (N - idx).toNat items.length) ∧
        st2.ready = true := by
  intro items
  induction items with
  | nil =>
    intro idx st hst
    refine ⟨st, ?_, ?_, hst⟩
    · unfold runLoop
      rw [if_neg (by simp [hst])]
      simp only [List.map_nil]
      split <;> rfl
    · simp only [List.length_nil]
      split <;> simp
  | cons p rest ih =>
    intro idx st hst
    simp only [List.map_cons]
    unfold runLoop
    rw [if_neg (by simp [hst])]
    by_cases hL : N ≠ 0 ∧ idx + 1 > N
    · rw [if_pos hL]
      refine ⟨st, rfl, ?_, hst⟩
      have h1 : (N - idx).toNat = 0 := by omega
      rw [if_neg hL.1, h1]
      simp
    · rw [if_neg hL]
      obtain ⟨st2, h1, h2, h3⟩ := ih (idx + 1)
        { ready := st.ready
          db := (processImage p.2 st.db st.dst p.1).db
          dst := (processImage p.2 st.db st.dst p.1).dst
          metrics := st.metrics ++ [(processImage p.2 st.db st.dst p.1).inc]
          processed := st.processed + 1 } (by simpa using hst)
      refine ⟨st2, h1, ?_, h3⟩
      simp only [List.length_cons] at h2 ⊢
      by_cases hN : N = 0
      · simp only [hN, reduceIte] at h2 ⊢
        omega
      · have hle : idx + 1 ≤ N := by
          rcases not_and_or.mp hL with h | h
          · exact absurd hN (by simpa using h)
          · omega
        simp only [hN, reduceIte] at h2 ⊢
        omega

/-- Claim C5: with a configured limit N > 0 the loop hands exactly N objects
to processing (or all of them when the source yields fewer than N) and then
stops even if more remain; with limit = 0 the loop is unbounded and runs to
iterator exhaustion, and Start returns nil either way. -/
theorem limit_enforcement (N : Int) (items : List (ObjectAttrs × ObjEnv))
    (db0 : List ImageRow) (dst0 : List String) (hN : 0 ≤ N) :
    ∃ st : StartOutcome,
      startSvc false N (items.map (fun p => NextStep.item p.1 p.2)) db0 dst0 =
        Except.ok st ∧
      st.retErr = false ∧
      st.processed = (if N = 0 then items.length else min N.toNat items.length) := by
  obtain ⟨st2, h1, h2, h3⟩ := runLoop_items_processed N items 0
    { ready := true, db := db0, dst := dst0, metrics := [], processed := 0 } rfl
  refine ⟨{ retErr := false, ready := st2.ready, db := st2.db, dst := st2.dst,
            metrics := st2.metrics, processed := st2.processed }, ?_, rfl, ?_⟩
  · unfold startSvc
    rw [if_neg (by simp)]
    rw [h1]
  · simpa using h2

/-- Witness for limit_enforcement: limit 2 over the three README objects
processes exactly 2 of them. -/
theorem limit_enforcement_witness :
    (0 : Int) ≤ 2 ∧
    ∃ st : StartOutcome,
      startSvc false 2
        (([(⟨"A/1/1_1.jpg", 253648, 2784486622⟩, ⟨false, false, false⟩),
           (⟨"A/1/1_2.jpg", 253703, 3645130469⟩, ⟨false, false, false⟩),
           (⟨"A/2/2_1.jpg", 253703, 3645130469⟩, ⟨false, false, false⟩)] :
          List (ObjectAttrs × ObjEnv)).map (fun p => NextStep.item p.1 p.2)) [] [] =
        Except.ok st ∧
      st.retErr = false ∧
      st.processed =
        (if (2 : Int) = 0 then
          ([(⟨"A/1/1_1.jpg", 253648, 2784486622⟩, ⟨false, false, false⟩),
            (⟨"A/1/1_2.jpg", 253703, 3645130469⟩, ⟨false, false, false⟩),
            (⟨"A/2/2_1.jpg", 253703, 3645130469⟩, ⟨false, false, false⟩)] :
            List (ObjectAttrs × ObjEnv)).length
         else min (2 : Int).toNat
          ([(⟨"A/1/1_1.jpg", 253648, 2784486622⟩, ⟨false, false, false⟩),
            (⟨"A/1/1_2.jpg", 253703, 3645130469⟩, ⟨false, false, false⟩),
            (⟨"A/2/2_1.jpg", 253703, 3645130469⟩, ⟨false, false, false⟩)] :
            List (ObjectAttrs × ObjEnv)).length) :=
  ⟨by decide,
   limit_enforcement 2
     [(⟨"A/1/1_1.jpg", 253648, 2784486622⟩, ⟨false, false, false⟩),
      (⟨"A/1/1_2.jpg", 253703, 3645130469⟩, ⟨false, false, false⟩),
      (⟨"A/2/2_1.jpg", 253703, 3645130469⟩, ⟨false, false, false⟩)] [] []
     (by decide)⟩

/-- Claim C7: for two objects with equal fingerprint and distinct names,
starting from an index holding no row with that fingerprint and no row for
the first name, and a destination without the first name, processing A then
B (all index operations succeeding) yields Success-Copy for A and
Success-Skip for B, and only A's copy changes the destination. -/
theorem duplicate_pair_single_copy (a b : ObjectAttrs) (db0 : List ImageRow)
    (dst0 : List String)
    (hfp : b.crc32c = a.crc32c) (hab : a.name ≠ b.name)
    (hcount : getImageCount db0 a.crc32c = 0)
    (hfresh : db0.any (fun r => r.name == a.name) = false)
    (hdst : dst0.contains a.name = false) :
    (processImage ⟨false, false, false⟩ db0 dst0 a).outcome = Outcome.successCopy ∧
    (processImage ⟨false, false, false⟩
      (processImage ⟨false, false, false⟩ db0 dst0 a).db
      (processImage ⟨false, false, false⟩ db0 dst0 a).dst b).outcome =
        Outcome.successSkip ∧
    (processImage ⟨false, false, false⟩
      (processImage ⟨false, false, false⟩ db0 dst0 a).db
      (processImage ⟨false, false, false⟩ db0 dst0 a).dst b).dst =
      (processImage ⟨false, false, false⟩ db0 dst0 a).dst ∧
    (processImage ⟨false, false, false⟩ db0 dst0 a).dst = a.name :: dst0 := by
  have hnd : a.name ∉ dst0 := by simpa using hdst
  have hins : insertImage db0 a (sectionOf a.name) =
      db0 ++ [{ name := a.name, sect := sectionOf a.name,
                pfx := filepathDir a.name, size := a.size, crc32 := a.crc32c }] := by
    unfold insertImage
    rw [if_neg (by simp [hfresh])]
  have hr1 : processImage ⟨false, false, false⟩ db0 dst0 a =
      { db := db0 ++ [{ name := a.name, sect := sectionOf a.name,
                        pfx := filepathDir a.name, size := a.size, crc32 := a.crc32c }],
        dst := a.name :: dst0,
        inc := [("status", "success"), ("operation", "copy")],
        outcome := Outcome.successCopy, copyAttempted := true } := by
    simp [processImage, hcount, hins, hnd]
  have hc2 : getImageCount
      (db0 ++ [{ name := a.name, sect := sectionOf a.name,
                 pfx := filepathDir a.name, size := a.size, crc32 := a.crc32c }])
      b.crc32c ≠ 0 := by
    unfold getImageCount at hcount ⊢
    rw [List.filter_append, List.length_append]
    simp [hfp]
  rw [hr1]
  simp [processImage, hc2]

/-- Witness for duplicate_pair_single_copy: the two README objects sharing
fingerprint 3645130469. -/
theorem duplicate_pair_single_copy_witness :
    ((3645130469 : Nat) = 3645130469 ∧ "A/1/1_2.jpg" ≠ "A/2/2_1.jpg" ∧
      getImageCount [] 3645130469 = 0 ∧
      List.any [] (fun r => ImageRow.name r == "A/1/1_2.jpg") = false ∧
      List.contains [] "A/1/1_2.jpg" = false) ∧
    ((processImage ⟨false, false, false⟩ [] []
        ⟨"A/1/1_2.jpg", 253703, 3645130469⟩).outcome = Outcome.successCopy ∧
      (processImage ⟨false, false, false⟩
        (processImage ⟨false, false, false⟩ [] []
          ⟨"A/1/1_2.jpg", 253703, 3645130469⟩).db
        (processImage ⟨false, false, false⟩ [] []
          ⟨"A/1/1_2.jpg", 253703, 3645130469⟩).dst
        ⟨"A/2/2_1.jpg", 253703, 3645130469⟩).outcome = Outcome.successSkip ∧
      (processImage ⟨false, false, false⟩
        (processImage ⟨false, false, false⟩ [] []
          ⟨"A/1/1_2.jpg", 253703, 3645130469⟩).db
        (processImage ⟨false, false, false⟩ [] []
          ⟨"A/1/1_2.jpg", 253703, 3645130469⟩).dst
        ⟨"A/2/2_1.jpg", 253703, 3645130469⟩).dst =
        (processImage ⟨false, false, false⟩ [] []
          ⟨"A/1/1_2.jpg", 253703, 3645130469⟩).dst ∧
      (processImage ⟨false, false, false⟩ [] []
        ⟨"A/1/1_2.jpg", 253703, 3645130469⟩).dst = ["A/1/1_2.jpg"]) :=
  ⟨⟨rfl, by decide, rfl, rfl, rfl⟩,
   duplicate_pair_single_copy ⟨"A/1/1_2.jpg", 253703, 3645130469⟩
     ⟨"A/2/2_1.jpg", 253703, 3645130469⟩ [] [] rfl (by decide) rfl rfl rfl⟩

theorem matchTok_nil_pat (ns : List Char) : matchTok [] ns = ns.isEmpty := by
  cases ns <;> rfl

theorem toTokens_cons_ne_star (c : Char) (rest : List Char) (hc : c ≠ '*') :
    toTokens (c :: rest) = Tok.lit c :: toTokens rest := by
  cases rest with
  | nil => simp [toTokens, hc]
  | cons d r2 => simp [toTokens, hc]

theorem toTokens_lit_append (p qs : List Char) (h : ∀ c ∈ p, c ≠ '*') :
    toTokens (p ++ qs) = p.map Tok.lit ++ toTokens qs := by
  induction p with
  | nil => simp
  | cons c p ih =>
    have hc : c ≠ '*' := h c (List.mem_cons_self c p)
    have hrest : ∀ d ∈ p, d ≠ '*' := fun d hd => h d (List.mem_cons_of_mem c hd)
    simp only [List.cons_append, List.map_cons]
    rw [toTokens_cons_ne_star c (p ++ qs) hc, ih hrest]

theorem matchTok_lit_append (p : List Char) (ts : List Tok) (ns : List Char) :
    matchTok (p.map Tok.lit ++ ts) ns = true ↔
    ∃ m, ns = p ++ m ∧ matchTok ts m = true := by
  induction p generalizing ns with
  | nil => simp
  | cons c p ih =>
    cases ns with
    | nil =>
      constructor
      · intro h
        exact absurd h (by simp [matchTok])
      · rintro ⟨m, hm, _⟩
        exact absurd hm (by simp)
    | cons d ns =>
      constructor
      · intro h
        have h2 : (c == d && matchTok (List.map Tok.lit p ++ ts) ns) = true := h
        rw [Bool.and_eq_true, beq_iff_eq] at h2
        obtain ⟨hcd, h3⟩ := h2
        subst hcd
        obtain ⟨m, hm, hts⟩ := (ih ns).mp h3
        exact ⟨m, by rw [hm]; rfl, hts⟩
      · rintro ⟨m, hm, hts⟩
        have hm2 : d :: ns = c :: (p ++ m) := by simpa using hm
        injection hm2 with h1 h2
        show (c == d && matchTok (List.map Tok.lit p ++ ts) ns) = true
        rw [Bool.and_eq_true, beq_iff_eq]
        exact ⟨h1.symm, (ih ns).mpr ⟨m, h2, hts⟩⟩

theorem mem_starRemainders (ns r : List Char) :
    r ∈ starRemainders ns ↔ ∃ s, ns = s ++ r ∧ ∀ c ∈ s, c ≠ '/' := by
  induction ns generalizing r with
  | nil =>
    show r ∈ [[]] ↔ _
    rw [List.mem_singleton]
    constructor
    · rintro rfl
      exact ⟨[], rfl, by simp⟩
    · rintro ⟨s, hs, _⟩
      obtain ⟨h1, h2⟩ := List.append_eq_nil.mp hs.symm
      exact h2
  | cons c ns ih =>
    show r ∈ (c :: ns) :: (if c = '/' then [] else starRemainders ns) ↔ _
    by_cases hc : c = '/'
    · rw [if_pos hc, List.mem_singleton]
      subst hc
      constructor
      · rintro rfl
        exact ⟨[], rfl, by simp⟩
      · rintro ⟨s, hs, hall⟩
        cases s with
        | nil => simpa using hs.symm
        | cons a s2 =>
          injection hs with h1 h2
          exact absurd h1.symm (hall a (List.mem_cons_self a s2))
    · rw [if_neg hc, List.mem_cons, ih]
      constructor
      · rintro (rfl | ⟨s, hs, hall⟩)
        · exact ⟨[], rfl, by simp⟩
        · refine ⟨c :: s, by rw [hs]; rfl, ?_⟩
          intro d hd
          rcases List.mem_cons.mp hd with rfl | hd2
          · exact hc
          · exact hall d hd2
      · rintro ⟨s, hs, hall⟩
        cases s with
        | nil =>
          left
          simpa using hs.symm
        | cons a s2 =>
          injection hs with h1 h2
          subst h1
          right
          exact ⟨s2, h2, fun d hd => hall d (List.mem_cons_of_mem c hd)⟩

theorem matchTok_star (ts : List Tok) (ns : List Char) :
    matchTok (Tok.star :: ts) ns = true ↔
    ∃ s r, ns = s ++ r ∧ (∀ c ∈ s, c ≠ '/') ∧ matchTok ts r = true := by
  show (starRemainders ns).any (fun r => matchTok ts r) = true ↔ _
  rw [List.any_eq_true]
  constructor
  · rintro ⟨r, hr, hm⟩
    obtain ⟨s, hs, hall⟩ := (mem_starRemainders ns r).mp hr
    exact ⟨s, r, hs, hall, hm⟩
  · rintro ⟨s, r, hs, hall, hm⟩
    exact ⟨r, (mem_starRemainders ns r).mpr ⟨s, hs, hall⟩, hm⟩

theorem matchTok_lit_only (p ns : List Char) :
    matchTok (p.map Tok.lit) ns = true ↔ ns = p := by
  have h := matchTok_lit_append p [] ns
  rw [List.append_nil] at h
  rw [h]
  constructor
  · rintro ⟨m, hm, hmt⟩
    rw [matchTok_nil_pat, List.isEmpty_iff] at hmt
    rw [hm, hmt, List.append_nil]
  · rintro rfl
    exact ⟨[], by simp, rfl⟩

theorem matchTok_slash_star_jpg (m : List Char) :
    matchTok (Tok.lit '/' :: Tok.star :: List.map Tok.lit ".jpg".data) m = true ↔
    ∃ seg : List Char, m = '/' :: (seg ++ ".jpg".data) ∧ ∀ c ∈ seg, c ≠ '/' := by
  cases m with
  | nil =>
    constructor
    · intro h
      exact absurd h (by simp [matchTok])
    · rintro ⟨seg, hm, _⟩
      exact absurd hm (by simp)
  | cons d m =>
    show ('/' == d && matchTok (Tok.star :: List.map Tok.lit ".jpg".data) m) = true ↔ _
    rw [Bool.and_eq_true, beq_iff_eq, matchTok_star]
    constructor
    · rintro ⟨hd, s, r, hm, hall, hr⟩
      rw [matchTok_lit_only] at hr
      subst hr
      exact ⟨s, by rw [← hd, hm], hall⟩
    · rintro ⟨seg, hm, hall⟩
      injection hm with h1 h2
      exact ⟨h1.symm, seg, ".jpg".data, h2, hall, (matchTok_lit_only _ _).mpr rfl⟩

theorem matchGlob_single_segment (P n : String)
    (hlit : ∀ c ∈ P.data, c ≠ '*') :
    matchGlob (P ++ "/*.jpg") n = true ↔
    ∃ seg : List Char,
      n.data = P.data ++ '/' :: (seg ++ ".jpg".data) ∧ ∀ c ∈ seg, c ≠ '/' := by
  unfold matchGlob
  rw [show (P ++ "/*.jpg").data = P.data ++ ('/' :: '*' :: ".jpg".data) from rfl]
  rw [toTokens_lit_append _ _ hlit]
  rw [show toTokens ('/' :: '*' :: ".jpg".data) =
      Tok.lit '/' :: Tok.star :: List.map Tok.lit ".jpg".data from rfl]
  rw [matchTok_lit_append]
  constructor
  · rintro ⟨m, hnm, hm⟩
    obtain ⟨seg, hm2, hall⟩ := (matchTok_slash_star_jpg m).mp hm
    exact ⟨seg, by rw [hnm, hm2], hall⟩
  · rintro ⟨seg, hnd, hall⟩
    exact ⟨'/' :: (seg ++ ".jpg".data), hnd,
      (matchTok_slash_star_jpg _).mpr ⟨seg, rfl, hall⟩⟩

/-- Claim C10, counterexample: with the non-empty Prefix consisting of the
double-star wildcard (the flag's documented default), the object a/b/c.jpg
is enumerated, yet its name is not the prefix followed by a separator and
one segment — it does not even start with the prefix. -/
theorem glob_filter_wildcard_cex :
    listedObjects "**" ["a/b/c.jpg"] = ["a/b/c.jpg"] ∧
    (∀ seg : String, "a/b/c.jpg" ≠ "**" ++ "/" ++ seg) := by
  refine ⟨by decide, ?_⟩
  intro seg h
  have h2 : "a/b/c.jpg".data = '*' :: '*' :: '/' :: seg.data := by
    rw [h]
    rfl
  simp at h2

/-- Claim C10, amended: for every service constructed with a non-empty
Prefix containing no glob wildcard, the listing filtered by the pattern
obtained by appending the separator, star and .jpg suffix to the prefix
enumerates exactly the objects whose name is the prefix followed by one
separator and a single path segment ending in .jpg (non-.jpg objects are
excluded); only with an empty Prefix are all objects enumerated
unfiltered. -/
theorem listed_objects_wildcard_free (P n : String) (names : List String)
    (hP : P ≠ "") (hlit : ∀ c ∈ P.data, c ≠ '*') :
    (n ∈ listedObjects P names ↔
      n ∈ names ∧ ∃ seg : List Char,
        n.data = P.data ++ '/' :: (seg ++ ".jpg".data) ∧ ∀ c ∈ seg, c ≠ '/') ∧
    listedObjects "" names = names := by
  constructor
  · unfold listedObjects buildQuery
    rw [if_pos hP]
    rw [List.mem_filter]
    exact and_congr_right fun _ => matchGlob_single_segment P n hlit
  · unfold listedObjects buildQuery
    rw [if_neg (by simp)]

/-- Witness for listed_objects_wildcard_free at the literal prefix A. -/
theorem listed_objects_wildcard_free_witness :
    ("A" ≠ "" ∧ ∀ c ∈ "A".data, c ≠ '*') ∧
    (("A/b.jpg" ∈ listedObjects "A" ["A/b.jpg", "A/b/c.jpg", "A/x.png"] ↔
      "A/b.jpg" ∈ ["A/b.jpg", "A/b/c.jpg", "A/x.png"] ∧ ∃ seg : List Char,
        "A/b.jpg".data = "A".data ++ '/' :: (seg ++ ".jpg".data) ∧
        ∀ c ∈ seg, c ≠ '/') ∧
    listedObjects "" ["A/b.jpg", "A/b/c.jpg", "A/x.png"] =
      ["A/b.jpg", "A/b/c.jpg", "A/x.png"]) :=
  ⟨⟨by decide, by decide⟩,
   listed_objects_wildcard_free "A" "A/b.jpg" ["A/b.jpg", "A/b/c.jpg", "A/x.png"]
     (by decide) (by decide)⟩
